import Mathlib

/-!
# Verification of the sandbox-runtime core against its specification

This file gives a shallow embedding, in Lean 4, of the parts of the
sandbox-runtime TypeScript code base that the frozen claims are about:

* the `SandboxViolationStore` (bounded ring of violation events with
  broadcast and per-execution subscribers);
* the `startUnixSocketSupervisor` retry/cleanup state machine;
* the host matcher, orchestrator (`SandboxManager`) lifecycle and the
  `generateProxyEnvVars` helper.  The source files of these last three are
  not part of the provided sources (only their schemas, tests and callers
  are), so they are modelled from the specification; each such definition
  carries a doc comment saying so.

Pure TypeScript functions become Lean functions; mutation of the singleton
store becomes explicit state passing; callback invocations become an
explicit list of `Notification` values returned alongside the new state;
JavaScript `Array.prototype.slice` with a possibly negative start index is
embedded faithfully (including the `slice(-0) = slice(0)` corner).
-/

namespace SandboxRuntime

/-- JavaScript `Array.prototype.slice(start)` for a possibly negative
`start`: a negative start counts from the end and is clamped at `0`;
a non-negative start drops that many initial elements.  Note that `-0`
is `0` in JavaScript, so `slice(-0)` returns the whole array. -/
def jsSliceFrom {α : Type} (l : List α) (start : Int) : List α :=
  if start < 0 then l.drop ((l.length + start).toNat) else l.drop start.toNat

/-- A sandbox violation event (`SandboxViolationEvent`).  The store only
inspects the optional `executionId` (JavaScript truthiness: `undefined`
and the empty string are both falsy) and the `encodedCommand` hash; the
remaining payload is kept abstract in the single field `raw`. -/
structure SandboxViolationEvent where
  executionId : Option String
  encodedCommand : String
  raw : String
deriving DecidableEq, Repr

/-- State of the `SandboxViolationStore`.  Listeners are identified by
numeric tokens; `listeners` embeds the JavaScript `Set` of broadcast
callbacks (insertion order, no duplicates) and `executionListeners`
embeds the `Map` from execution id to its `Set` of callbacks. -/
structure SandboxViolationStore where
  violations : List SandboxViolationEvent
  totalCount : Nat
  listeners : List Nat
  executionListeners : List (String × List Nat)
deriving DecidableEq, Repr

/-- `maxSize` field of the store. -/
def maxSize : Nat := 500

/-- The store as constructed: everything empty. -/
def emptyStore : SandboxViolationStore :=
  { violations := [], totalCount := 0, listeners := [], executionListeners := [] }

/-- A callback invocation recorded while running a store operation:
either a broadcast listener called with a snapshot of the ring, or a
per-execution listener called with a single event. -/
inductive Notification where
  | broadcast (listener : Nat) (snapshot : List SandboxViolationEvent)
  | execution (listener : Nat) (event : SandboxViolationEvent)
deriving DecidableEq, Repr

/-- `Map.prototype.get` on the execution-listener map. -/
def lookupExec (m : List (String × List Nat)) (eid : String) : Option (List Nat) :=
  match m with
  | [] => none
  | (k, v) :: rest => if k = eid then some v else lookupExec rest eid

/-- `Map.prototype.set` on an existing key of the execution-listener map. -/
def setExec (m : List (String × List Nat)) (eid : String) (v : List Nat) :
    List (String × List Nat) :=
  match m with
  | [] => []
  | (k, w) :: rest => if k = eid then (k, v) :: rest else (k, w) :: setExec rest eid v

/-- `Map.prototype.delete` on the execution-listener map. -/
def deleteExec (m : List (String × List Nat)) (eid : String) :
    List (String × List Nat) :=
  match m with
  | [] => []
  | (k, w) :: rest => if k = eid then rest else (k, w) :: deleteExec rest eid

/-- `getViolations(limit?)`: without a limit, a fresh copy of the whole
ring; with a limit, `this.violations.slice(-limit)`. -/
def getViolations (s : SandboxViolationStore) (limit : Option Nat) :
    List SandboxViolationEvent :=
  match limit with
  | none => s.violations
  | some n => jsSliceFrom s.violations (-(n : Int))

/-- `getCount()`. -/
def getCount (s : SandboxViolationStore) : Nat := s.violations.length

/-- `getTotalCount()`. -/
def getTotalCount (s : SandboxViolationStore) : Nat := s.totalCount

/-- `notifyListeners()`: every broadcast listener receives the full
current snapshot. -/
def notifyListeners (s : SandboxViolationStore) : List Notification :=
  s.listeners.map (fun l => Notification.broadcast l (getViolations s none))

/-- `addViolation(violation)`: push, bump `totalCount`, evict down to the
most recent `maxSize` entries via `slice(-maxSize)` when over capacity,
notify the broadcast listeners, then notify the execution listeners of
`violation.executionId` when that id is truthy. -/
def addViolation (v : SandboxViolationEvent) (s : SandboxViolationStore) :
    SandboxViolationStore × List Notification :=
  let s1 : SandboxViolationStore :=
    { s with violations := s.violations ++ [v], totalCount := s.totalCount + 1 }
  let s2 : SandboxViolationStore :=
    if s1.violations.length > maxSize then
      { s1 with violations := jsSliceFrom s1.violations (-(maxSize : Int)) }
    else s1
  let execNotifs : List Notification :=
    match v.executionId with
    | some eid =>
      if eid ≠ "" then
        match lookupExec s2.executionListeners eid with
        | some ls => ls.map (fun l => Notification.execution l v)
        | none => []
      else []
    | none => []
  (s2, notifyListeners s2 ++ execNotifs)

/-- `getViolationsForExecution(executionId)`. -/
def getViolationsForExecution (eid : String) (s : SandboxViolationStore) :
    List SandboxViolationEvent :=
  s.violations.filter (fun v => v.executionId = some eid)

/-- `clear()`: empty the ring, do not touch `totalCount`, notify the
broadcast listeners. -/
def clear (s : SandboxViolationStore) : SandboxViolationStore × List Notification :=
  let s' : SandboxViolationStore := { s with violations := [] }
  (s', notifyListeners s')

/-- `subscribe(listener)`: add to the `Set`, then call the new listener
once with the current snapshot. -/
def subscribe (lid : Nat) (s : SandboxViolationStore) :
    SandboxViolationStore × List Notification :=
  let s' : SandboxViolationStore :=
    { s with listeners := if lid ∈ s.listeners then s.listeners else s.listeners ++ [lid] }
  (s', [Notification.broadcast lid (getViolations s' none)])

/-- The unsubscribe closure returned by `subscribe`: `Set.delete`. -/
def unsubscribe (lid : Nat) (s : SandboxViolationStore) : SandboxViolationStore :=
  { s with listeners := s.listeners.erase lid }

/-- `subscribeToExecution(executionId, listener)`: create the `Set` for
the id when absent, then add the listener to it. -/
def subscribeToExecution (eid : String) (lid : Nat) (s : SandboxViolationStore) :
    SandboxViolationStore :=
  match lookupExec s.executionListeners eid with
  | none => { s with executionListeners := s.executionListeners ++ [(eid, [lid])] }
  | some ls =>
    { s with executionListeners :=
        setExec s.executionListeners eid (if lid ∈ ls then ls else ls ++ [lid]) }

/-- The unsubscribe closure returned by `subscribeToExecution`: delete
the listener from the id's `Set` and drop the map entry when the `Set`
becomes empty. -/
def unsubscribeFromExecution (eid : String) (lid : Nat) (s : SandboxViolationStore) :
    SandboxViolationStore :=
  match lookupExec s.executionListeners eid with
  | none => s
  | some ls =>
    let ls' := ls.erase lid
    if ls'.length = 0 then
      { s with executionListeners := deleteExec s.executionListeners eid }
    else
      { s with executionListeners := setExec s.executionListeners eid ls' }

/-- One externally triggerable operation on the store. -/
inductive StoreOp where
  | add (v : SandboxViolationEvent)
  | clearOp
  | subscribeOp (lid : Nat)
  | unsubscribeOp (lid : Nat)
  | subscribeExecOp (eid : String) (lid : Nat)
  | unsubscribeExecOp (eid : String) (lid : Nat)
deriving DecidableEq, Repr

/-- Apply one operation, dropping the notification trace. -/
def applyOp (s : SandboxViolationStore) (op : StoreOp) : SandboxViolationStore :=
  match op with
  | .add v => (addViolation v s).1
  | .clearOp => (clear s).1
  | .subscribeOp lid => (subscribe lid s).1
  | .unsubscribeOp lid => unsubscribe lid s
  | .subscribeExecOp eid lid => subscribeToExecution eid lid s
  | .unsubscribeExecOp eid lid => unsubscribeFromExecution eid lid s

/-- Run a sequence of operations from a given store state. -/
def runOps (s : SandboxViolationStore) (ops : List StoreOp) : SandboxViolationStore :=
  ops.foldl applyOp s

example : getCount (runOps emptyStore [.add ⟨none, "c", "r"⟩, .add ⟨none, "c", "q"⟩]) = 2 := by
  decide

example : getTotalCount (runOps emptyStore [.add ⟨none, "c", "r"⟩, .clearOp]) = 1 := by
  decide

/-! ## Helper lemmas about the embedded `Map`, `Set` and `slice` -/

theorem jsSliceFrom_neg {α : Type} (l : List α) (k : Nat) (hk : 0 < k) :
    jsSliceFrom l (-(k : Int)) = l.drop (l.length - k) := by
  unfold jsSliceFrom
  rw [if_pos (by omega : -(k : Int) < 0)]
  congr 1
  omega

theorem lookupExec_eq_none {m : List (String × List Nat)} {eid : String} :
    lookupExec m eid = none ↔ eid ∉ m.map Prod.fst := by
  induction m with
  | nil => simp [lookupExec]
  | cons p rest ih =>
    obtain ⟨k, v⟩ := p
    by_cases h : k = eid
    · subst h
      simp [lookupExec]
    · rw [List.map_cons]
      simp only [lookupExec, if_neg h, List.mem_cons, ih]
      constructor
      · intro hn hc
        rcases hc with hc | hc
        · exact h hc.symm
        · exact hn hc
      · intro hn hc
        exact hn (Or.inr hc)

theorem lookupExec_eq_some_mem {m : List (String × List Nat)} {eid : String}
    {ls : List Nat} (h : lookupExec m eid = some ls) : (eid, ls) ∈ m := by
  induction m with
  | nil => simp [lookupExec] at h
  | cons p rest ih =>
    obtain ⟨k, v⟩ := p
    by_cases hk : k = eid
    · subst hk
      simp [lookupExec] at h
      subst h
      exact List.mem_cons_self _ _
    · simp [lookupExec, hk] at h
      exact List.mem_cons_of_mem _ (ih h)

theorem setExec_map_fst (m : List (String × List Nat)) (eid : String) (v : List Nat) :
    (setExec m eid v).map Prod.fst = m.map Prod.fst := by
  induction m with
  | nil => rfl
  | cons p rest ih =>
    obtain ⟨k, w⟩ := p
    by_cases h : k = eid <;> simp [setExec, h, ih]

theorem mem_setExec {m : List (String × List Nat)} {eid : String} {v : List Nat}
    {p : String × List Nat} (h : p ∈ setExec m eid v) : p ∈ m ∨ p = (eid, v) := by
  induction m with
  | nil => simp [setExec] at h
  | cons q rest ih =>
    obtain ⟨k, w⟩ := q
    by_cases hk : k = eid
    · subst hk
      simp [setExec] at h
      rcases h with h | h
      · exact Or.inr (by simp [h])
      · exact Or.inl (List.mem_cons_of_mem _ h)
    · simp [setExec, hk] at h
      rcases h with h | h
      · exact Or.inl (by simp [h])
      · rcases ih h with h' | h'
        · exact Or.inl (List.mem_cons_of_mem _ h')
        · exact Or.inr h'

theorem lookupExec_setExec_self {m : List (String × List Nat)} {eid : String}
    (v : List Nat) (h : eid ∈ m.map Prod.fst) :
    lookupExec (setExec m eid v) eid = some v := by
  induction m with
  | nil => simp at h
  | cons p rest ih =>
    obtain ⟨k, w⟩ := p
    by_cases hk : k = eid
    · simp [setExec, hk, lookupExec]
    · rw [List.map_cons, List.mem_cons] at h
      rcases h with h | h
      · exact absurd h.symm hk
      · simp [setExec, hk, lookupExec, ih h]

theorem lookupExec_append_none {m : List (String × List Nat)} {eid : String}
    (h : lookupExec m eid = none) (v : List Nat) :
    lookupExec (m ++ [(eid, v)]) eid = some v := by
  induction m with
  | nil => simp [lookupExec]
  | cons p rest ih =>
    obtain ⟨k, w⟩ := p
    by_cases hk : k = eid
    · simp [lookupExec, hk] at h
    · simp [lookupExec, hk] at h ⊢
      exact ih h

theorem deleteExec_sublist (m : List (String × List Nat)) (eid : String) :
    (deleteExec m eid).Sublist m := by
  induction m with
  | nil => simp [deleteExec]
  | cons p rest ih =>
    obtain ⟨k, w⟩ := p
    by_cases h : k = eid
    · simp only [deleteExec, if_pos h]
      exact List.sublist_cons_self _ _
    · simp only [deleteExec, if_neg h]
      exact List.Sublist.cons₂ _ ih

theorem lookupExec_deleteExec_self {m : List (String × List Nat)} {eid : String}
    (hnd : (m.map Prod.fst).Nodup) :
    lookupExec (deleteExec m eid) eid = none := by
  induction m with
  | nil => simp [deleteExec, lookupExec]
  | cons p rest ih =>
    obtain ⟨k, w⟩ := p
    simp only [List.map_cons, List.nodup_cons] at hnd
    by_cases h : k = eid
    · subst h
      simp only [deleteExec, if_pos rfl]
      rw [lookupExec_eq_none]
      exact hnd.1
    · simp [deleteExec, h, lookupExec, ih hnd.2]

/-! ## Store well-formedness

The `Set`/`Map` embedding keeps listener lists duplicate-free, the
execution map keyed without duplicates and its value sets non-empty;
the ring never exceeds `maxSize`.  All of this is preserved by every
operation, starting from the freshly constructed store. -/

/-- Structural invariant of a reachable store state. -/
def StoreWF (s : SandboxViolationStore) : Prop :=
  s.violations.length ≤ maxSize ∧
  s.listeners.Nodup ∧
  (s.executionListeners.map Prod.fst).Nodup ∧
  ∀ p ∈ s.executionListeners, p.2.Nodup ∧ p.2 ≠ []

theorem storeWF_empty : StoreWF emptyStore := by
  refine ⟨by simp [emptyStore, maxSize], by simp [emptyStore], by simp [emptyStore], ?_⟩
  simp [emptyStore]

/-- The ring after `addViolation` is the most recent `maxSize`-suffix of
the old ring with the new event appended (no condition on the store:
`slice(-maxSize)` already computes exactly this suffix). -/
theorem addViolation_violations (v : SandboxViolationEvent) (s : SandboxViolationStore) :
    (addViolation v s).1.violations =
      (s.violations ++ [v]).drop (s.violations.length + 1 - maxSize) := by
  by_cases h : (s.violations ++ [v]).length > maxSize
  · have hv : (addViolation v s).1.violations =
        jsSliceFrom (s.violations ++ [v]) (-(maxSize : Int)) := by
      simp only [addViolation, if_pos h]
    rw [hv, jsSliceFrom_neg _ _ (by decide)]
    simp
  · have hv : (addViolation v s).1.violations = s.violations ++ [v] := by
      simp only [addViolation, if_neg h]
    rw [hv]
    simp only [List.length_append, List.length_cons, List.length_nil] at h
    rw [Nat.sub_eq_zero_of_le (by omega), List.drop_zero]

theorem addViolation_totalCount (v : SandboxViolationEvent) (s : SandboxViolationStore) :
    (addViolation v s).1.totalCount = s.totalCount + 1 := by
  show (if _ then _ else _ : SandboxViolationStore).totalCount = _
  split <;> rfl

theorem addViolation_listeners (v : SandboxViolationEvent) (s : SandboxViolationStore) :
    (addViolation v s).1.listeners = s.listeners := by
  show (if _ then _ else _ : SandboxViolationStore).listeners = _
  split <;> rfl

theorem addViolation_executionListeners (v : SandboxViolationEvent)
    (s : SandboxViolationStore) :
    (addViolation v s).1.executionListeners = s.executionListeners := by
  show (if _ then _ else _ : SandboxViolationStore).executionListeners = _
  split <;> rfl

theorem addViolation_count (v : SandboxViolationEvent) (s : SandboxViolationStore) :
    (addViolation v s).1.violations.length = min (s.violations.length + 1) maxSize := by
  rw [addViolation_violations]
  simp
  omega

theorem storeWF_applyOp {s : SandboxViolationStore} (hs : StoreWF s) (op : StoreOp) :
    StoreWF (applyOp s op) := by
  obtain ⟨hlen, hnd, hknd, hvals⟩ := hs
  cases op with
  | add v =>
    refine ⟨?_, ?_, ?_, ?_⟩
    · show (addViolation v s).1.violations.length ≤ maxSize
      rw [addViolation_count]
      omega
    · rw [show (applyOp s (.add v)).listeners = s.listeners from addViolation_listeners v s]
      exact hnd
    · rw [show (applyOp s (.add v)).executionListeners = s.executionListeners from
        addViolation_executionListeners v s]
      exact hknd
    · rw [show (applyOp s (.add v)).executionListeners = s.executionListeners from
        addViolation_executionListeners v s]
      exact hvals
  | clearOp => exact ⟨by simp [applyOp, clear, maxSize], hnd, hknd, hvals⟩
  | subscribeOp lid =>
    refine ⟨hlen, ?_, hknd, hvals⟩
    show (if lid ∈ s.listeners then s.listeners else s.listeners ++ [lid]).Nodup
    by_cases h : lid ∈ s.listeners
    · simpa [h] using hnd
    · simp only [if_neg h]
      simpa [List.nodup_append, h] using hnd
  | unsubscribeOp lid =>
    exact ⟨hlen, List.Nodup.erase lid hnd, hknd, hvals⟩
  | subscribeExecOp eid lid =>
    show StoreWF (subscribeToExecution eid lid s)
    unfold subscribeToExecution
    cases hl : lookupExec s.executionListeners eid with
    | none =>
      refine ⟨hlen, hnd, ?_, ?_⟩
      · simp only [List.map_append, List.map_cons, List.map_nil]
        rw [List.nodup_append]
        exact ⟨hknd, List.nodup_singleton _, by
          intro a ha hb
          simp at hb
          rw [lookupExec_eq_none] at hl
          exact hl (hb ▸ ha)⟩
      · intro p hp
        rcases List.mem_append.mp hp with hp | hp
        · exact hvals p hp
        · simp at hp
          subst hp
          exact ⟨List.nodup_singleton _, by simp⟩
    | some ls =>
      dsimp only
      refine ⟨hlen, hnd, by rw [setExec_map_fst]; exact hknd, ?_⟩
      intro p hp
      rcases mem_setExec hp with hp' | hp'
      · exact hvals p hp'
      · subst hp'
        have hmem := lookupExec_eq_some_mem hl
        have hls := hvals _ hmem
        by_cases hm : lid ∈ ls
        · simpa [hm] using hls
        · refine ⟨?_, by simp [hm]⟩
          simp only [if_neg hm]
          simpa [List.nodup_append, hm] using hls.1
  | unsubscribeExecOp eid lid =>
    show StoreWF (unsubscribeFromExecution eid lid s)
    unfold unsubscribeFromExecution
    cases hl : lookupExec s.executionListeners eid with
    | none => exact ⟨hlen, hnd, hknd, hvals⟩
    | some ls =>
      by_cases hz : (ls.erase lid).length = 0
      · simp only [hz, if_pos rfl]
        refine ⟨hlen, hnd, ?_, ?_⟩
        · exact List.Nodup.sublist (List.Sublist.map _ (deleteExec_sublist _ _)) hknd
        · intro p hp
          exact hvals p (deleteExec_sublist _ _ |>.mem hp)
      · simp only [if_neg hz]
        refine ⟨hlen, hnd, by rw [setExec_map_fst]; exact hknd, ?_⟩
        intro p hp
        rcases mem_setExec hp with hp' | hp'
        · exact hvals p hp'
        · subst hp'
          have hmem := lookupExec_eq_some_mem hl
          refine ⟨List.Nodup.erase lid (hvals _ hmem).1, ?_⟩
          intro hnil
          exact hz (by simpa using congrArg List.length hnil)

theorem storeWF_runOps {s : SandboxViolationStore} (hs : StoreWF s) (ops : List StoreOp) :
    StoreWF (runOps s ops) := by
  induction ops generalizing s with
  | nil => exact hs
  | cons op rest ih => exact ih (storeWF_applyOp hs op)

/-! ## Claim C2: ring invariants -/

/-- C2.  Under every operation sequence from the fresh store: the ring
holds at most 500 events; `addViolation` appends the event and keeps
exactly the most recent `min(count+1, 500)` events (evicting the oldest
on overflow); it increments `totalCount` by one; no operation ever
decreases `totalCount`; and `clear` empties the ring while leaving
`totalCount` unchanged. -/
theorem violation_ring_invariants (ops : List StoreOp) :
    getCount (runOps emptyStore ops) ≤ 500 ∧
    (∀ v, getTotalCount (addViolation v (runOps emptyStore ops)).1 =
        getTotalCount (runOps emptyStore ops) + 1) ∧
    (∀ op, getTotalCount (runOps emptyStore ops) ≤
        getTotalCount (applyOp (runOps emptyStore ops) op)) ∧
    (∀ v, (addViolation v (runOps emptyStore ops)).1.violations =
        ((runOps emptyStore ops).violations ++ [v]).drop
          ((runOps emptyStore ops).violations.length + 1 - 500) ∧
        getCount (addViolation v (runOps emptyStore ops)).1 =
          min (getCount (runOps emptyStore ops) + 1) 500) ∧
    (clear (runOps emptyStore ops)).1.violations = [] ∧
    getTotalCount (clear (runOps emptyStore ops)).1 =
      getTotalCount (runOps emptyStore ops) := by
  have hwf := storeWF_runOps storeWF_empty ops
  refine ⟨hwf.1, fun v => addViolation_totalCount v _, ?_, ?_, rfl, rfl⟩
  · intro op
    cases op with
    | add v =>
      simp only [getTotalCount, applyOp]
      rw [addViolation_totalCount]
      omega
    | clearOp => exact le_refl _
    | subscribeOp lid => exact le_refl _
    | unsubscribeOp lid => exact le_refl _
    | subscribeExecOp eid lid =>
      simp only [getTotalCount, applyOp]
      unfold subscribeToExecution
      cases lookupExec (runOps emptyStore ops).executionListeners eid <;> exact le_refl _
    | unsubscribeExecOp eid lid =>
      simp only [getTotalCount, applyOp]
      unfold unsubscribeFromExecution
      cases lookupExec (runOps emptyStore ops).executionListeners eid with
      | none => exact le_refl _
      | some ls => dsimp only; split <;> exact le_refl _
  · exact fun v => ⟨addViolation_violations v _, addViolation_count v _⟩

/-! ## Claim C6: broadcast subscriptions -/

theorem addViolation_snd (v : SandboxViolationEvent) (s : SandboxViolationStore) :
    (addViolation v s).2 =
      (addViolation v s).1.listeners.map
        (fun l => Notification.broadcast l (addViolation v s).1.violations) ++
      (match v.executionId with
       | some eid =>
         if eid ≠ "" then
           match lookupExec s.executionListeners eid with
           | some ls => ls.map (fun l => Notification.execution l v)
           | none => []
         else []
       | none => []) := by
  by_cases hov : (s.violations ++ [v]).length > maxSize
  · dsimp only [addViolation]
    rw [if_pos hov]
    rfl
  · dsimp only [addViolation]
    rw [if_neg hov]
    rfl

/-- C6.  A broadcast subscriber is called exactly once at registration,
with the snapshot current at that moment; it is then registered, and
every registered listener is called with the full current snapshot by
every `addViolation` and every `clear`; the returned unsubscribe removes
exactly that listener and no other. -/
theorem broadcast_subscription (ops : List StoreOp) (lid : Nat) :
    (subscribe lid (runOps emptyStore ops)).2 =
      [Notification.broadcast lid (runOps emptyStore ops).violations] ∧
    lid ∈ (subscribe lid (runOps emptyStore ops)).1.listeners ∧
    (∀ v l, l ∈ (runOps emptyStore ops).listeners →
      Notification.broadcast l (addViolation v (runOps emptyStore ops)).1.violations ∈
        (addViolation v (runOps emptyStore ops)).2) ∧
    (∀ l, l ∈ (runOps emptyStore ops).listeners →
      Notification.broadcast l [] ∈ (clear (runOps emptyStore ops)).2) ∧
    lid ∉ (unsubscribe lid (runOps emptyStore ops)).listeners ∧
    (∀ l, l ≠ lid →
      (l ∈ (unsubscribe lid (runOps emptyStore ops)).listeners ↔
        l ∈ (runOps emptyStore ops).listeners)) := by
  have hwf := storeWF_runOps storeWF_empty ops
  refine ⟨rfl, ?_, ?_, ?_, ?_, ?_⟩
  · show lid ∈
      (if lid ∈ (runOps emptyStore ops).listeners then (runOps emptyStore ops).listeners
       else (runOps emptyStore ops).listeners ++ [lid])
    by_cases h : lid ∈ (runOps emptyStore ops).listeners
    · simp only [if_pos h]
      exact h
    · simp [h]
  · intro v l hl
    rw [addViolation_snd]
    refine List.mem_append_left _ (List.mem_map_of_mem _ ?_)
    rw [addViolation_listeners]
    exact hl
  · intro l hl
    exact List.mem_map_of_mem _ hl
  · intro hmem
    have := (List.Nodup.mem_erase_iff hwf.2.1).mp hmem
    exact this.1 rfl
  · intro l hne
    exact List.mem_erase_of_ne hne

/-- Witness for C6 at concrete inputs: listener `3` already registered,
a fresh subscription by listener `5`, one added violation and one
`clear`, and an unsubscribe of an absent listener. -/
theorem broadcast_subscription_witness :
    (subscribe 5 (runOps emptyStore [.subscribeOp 3])).2 =
      [Notification.broadcast 5 (runOps emptyStore [.subscribeOp 3]).violations] ∧
    (Notification.broadcast 3
        (addViolation ⟨none, "c", "r"⟩ (runOps emptyStore [.subscribeOp 3])).1.violations ∈
      (addViolation ⟨none, "c", "r"⟩ (runOps emptyStore [.subscribeOp 3])).2) ∧
    (Notification.broadcast 3 [] ∈ (clear (runOps emptyStore [.subscribeOp 3])).2) ∧
    (3 ∈ (unsubscribe 5 (runOps emptyStore [.subscribeOp 3])).listeners ↔
      3 ∈ (runOps emptyStore [.subscribeOp 3]).listeners) := by
  have h := broadcast_subscription [.subscribeOp 3] 5
  exact ⟨h.1, h.2.2.1 ⟨none, "c", "r"⟩ 3 (by decide), h.2.2.2.1 3 (by decide),
    h.2.2.2.2.2 3 (by decide)⟩

/-! ## Claim C7: per-execution subscriptions

The code guards delivery by JavaScript truthiness of `executionId`, so a
listener subscribed under the empty-string id never receives events even
when their `executionId` equals that id; the claim as stated is
therefore refuted by the empty id and holds for every non-empty id. -/

theorem mem_subscribeToExecution {s : SandboxViolationStore} {eid : String} {lid : Nat}
    {p : String × List Nat}
    (hp : p ∈ (subscribeToExecution eid lid s).executionListeners) :
    p ∈ s.executionListeners ∨ p.1 = eid := by
  revert hp
  unfold subscribeToExecution
  cases lookupExec s.executionListeners eid with
  | none =>
    intro hp
    rcases List.mem_append.mp hp with hp | hp
    · exact Or.inl hp
    · simp at hp
      exact Or.inr (by rw [hp])
  | some ls =>
    intro hp
    rcases mem_setExec hp with hp | hp
    · exact Or.inl hp
    · exact Or.inr (by rw [hp])

theorem lookup_subscribeToExecution_self (s : SandboxViolationStore) (eid : String)
    (lid : Nat) :
    ∃ ls', lookupExec (subscribeToExecution eid lid s).executionListeners eid = some ls' ∧
      lid ∈ ls' := by
  unfold subscribeToExecution
  cases hl : lookupExec s.executionListeners eid with
  | none => exact ⟨[lid], lookupExec_append_none hl [lid], by simp⟩
  | some ls =>
    refine ⟨_, lookupExec_setExec_self _ ?_, ?_⟩
    · exact List.mem_map_of_mem Prod.fst (lookupExec_eq_some_mem hl)
    · by_cases hm : lid ∈ ls <;> simp [hm]

theorem mem_addViolation_execution (s : SandboxViolationStore) (v : SandboxViolationEvent)
    (l : Nat) (w : SandboxViolationEvent) :
    Notification.execution l w ∈ (addViolation v s).2 ↔
      (w = v ∧ ∃ e, v.executionId = some e ∧ e ≠ "" ∧
        ∃ ls, lookupExec s.executionListeners e = some ls ∧ l ∈ ls) := by
  rw [addViolation_snd, List.mem_append]
  constructor
  · intro h
    rcases h with h | h
    · exfalso
      rcases List.mem_map.mp h with ⟨x, -, hx⟩
      exact Notification.noConfusion hx
    · cases hid : v.executionId with
      | none => rw [hid] at h; simp at h
      | some e =>
        rw [hid] at h
        dsimp only at h
        by_cases he : e = ""
        · rw [he] at h
          simp at h
        · rw [if_pos he] at h
          cases hl : lookupExec s.executionListeners e with
          | none => rw [hl] at h; simp at h
          | some ls =>
            rw [hl] at h
            dsimp only at h
            rcases List.mem_map.mp h with ⟨x, hx, hxx⟩
            injection hxx with h1 h2
            exact ⟨h2.symm, e, rfl, he, ls, hl, h1 ▸ hx⟩
  · rintro ⟨rfl, e, hid, he, ls, hl, hmem⟩
    right
    rw [hid]
    dsimp only
    rw [if_pos he, hl]
    exact List.mem_map_of_mem _ hmem

/-- C7 (amended).  For a non-empty execution id, a listener registered
via `subscribeToExecution(id, cb)` on a reachable store where it is not
yet registered anywhere receives a subsequently added violation exactly
when the violation's `executionId` equals that id (different or absent
ids are never delivered; an event whose `executionId` is the empty
string is treated as absent); and when the last listener of an id
unsubscribes, the id's listener set is removed from the map. -/
theorem execution_subscription (ops : List StoreOp) (eid : String) (lid : Nat)
    (heid : eid ≠ "")
    (hfresh : ∀ p ∈ (runOps emptyStore ops).executionListeners, lid ∉ p.2) :
    (∀ v, Notification.execution lid v ∈
        (addViolation v (subscribeToExecution eid lid (runOps emptyStore ops))).2 ↔
      v.executionId = some eid) ∧
    (∀ eid' lid',
      lookupExec (runOps emptyStore ops).executionListeners eid' = some [lid'] →
      lookupExec
        (unsubscribeFromExecution eid' lid' (runOps emptyStore ops)).executionListeners
        eid' = none) := by
  have hwf := storeWF_runOps storeWF_empty ops
  constructor
  · intro v
    rw [mem_addViolation_execution]
    constructor
    · rintro ⟨-, e, hid, he, ls, hl, hmem⟩
      have hpmem := lookupExec_eq_some_mem hl
      rcases mem_subscribeToExecution hpmem with hin | hkey
      · exact absurd hmem (hfresh _ hin)
      · rw [hid]
        exact congrArg some hkey
    · intro hid
      obtain ⟨ls', hl', hmem'⟩ :=
        lookup_subscribeToExecution_self (runOps emptyStore ops) eid lid
      exact ⟨rfl, eid, hid, heid, ls', hl', hmem'⟩
  · intro eid' lid' hl
    unfold unsubscribeFromExecution
    rw [hl]
    dsimp only
    rw [List.erase_cons_head]
    simp only [List.length_nil, if_true, eq_self_iff_true]
    exact lookupExec_deleteExec_self hwf.2.2.1

/-- Witness for C7 at concrete inputs: listener `0` freshly subscribed to
id `x` on a store already holding a different registration, delivery of
a matching event, and auto-removal of the singleton set for id `e`. -/
theorem execution_subscription_witness :
    ((Notification.execution 0 (⟨some "x", "c", "w"⟩ : SandboxViolationEvent) ∈
        (addViolation ⟨some "x", "c", "w"⟩
          (subscribeToExecution "x" 0
            (runOps emptyStore [.subscribeExecOp "e" 1]))).2) ↔
      (some "x" : Option String) = some "x") ∧
    lookupExec
      (unsubscribeFromExecution "e" 1
        (runOps emptyStore [.subscribeExecOp "e" 1])).executionListeners "e" = none := by
  have h := execution_subscription [.subscribeExecOp "e" 1] "x" 0 (by decide) (by decide)
  exact ⟨h.1 ⟨some "x", "c", "w"⟩, h.2 "e" 1 (by decide)⟩

/-- Counterexample to C7 as stated: a listener subscribed under the
empty-string execution id is not invoked for a violation whose
`executionId` equals that id, because the code tests JavaScript
truthiness (`if (violation.executionId)`) and the empty string is falsy. -/
theorem execution_subscription_cex :
    (⟨some "", "c", "r"⟩ : SandboxViolationEvent).executionId = some "" ∧
    Notification.execution 7 ⟨some "", "c", "r"⟩ ∉
      (addViolation ⟨some "", "c", "r"⟩ (subscribeToExecution "" 7 emptyStore)).2 := by
  decide

/-! ## Claim C8: lookup by encoded command

`encodeSandboxedCommand` lives in `src/sandbox/sandbox-utils.ts`, which
is not among the provided sources; only its caller
`getViolationsForCommand` (which names its value `commandBase64`) is.
It is therefore modelled from the specification. -/

/-- UTF-8 encoding of a single code point. -/
def utf8BytesOfChar (c : Char) : List Nat :=
  let n := c.toNat
  if n < 128 then [n]
  else if n < 2048 then [192 + n / 64, 128 + n % 64]
  else if n < 65536 then [224 + n / 4096, 128 + (n / 64) % 64, 128 + n % 64]
  else [240 + n / 262144, 128 + (n / 4096) % 64, 128 + (n / 64) % 64, 128 + n % 64]

/-- UTF-8 bytes of a string. -/
def utf8Bytes (s : String) : List Nat :=
  s.data.foldr (fun c acc => utf8BytesOfChar c ++ acc) []

/-- The 64 characters of the Base64 alphabet. -/
def base64Alphabet : List Char :=
  "ABCDEFGHIJKLMNOPQRSTUVWXYZabcdefghijklmnopqrstuvwxyz0123456789+/".data

/-- Base64 of a byte list, with `=` padding. -/
def base64Encode : List Nat → List Char
  | [] => []
  | [a] =>
    [base64Alphabet.getD (a / 4) 'A', base64Alphabet.getD (a % 4 * 16) 'A', '=', '=']
  | [a, b] =>
    [base64Alphabet.getD (a / 4) 'A', base64Alphabet.getD (a % 4 * 16 + b / 16) 'A',
     base64Alphabet.getD (b % 16 * 4) 'A', '=']
  | a :: b :: c :: rest =>
    base64Alphabet.getD (a / 4) 'A' :: base64Alphabet.getD (a % 4 * 16 + b / 16) 'A' ::
    base64Alphabet.getD (b % 16 * 4 + c / 64) 'A' :: base64Alphabet.getD (c % 64) 'A' ::
    base64Encode rest

/-- Modelled from the spec: `encodeSandboxedCommand` of
`sandbox-utils.ts` is missing from the sources; the specification
requires a stable encoding of the command string (same command string
produces the same hash across runs, distinct commands produce distinct
hashes), and the caller binds its result to a variable named
`commandBase64`, so it is modelled as Base64 of the command's UTF-8
bytes. -/
def encodeSandboxedCommand (command : String) : String :=
  String.mk (base64Encode (utf8Bytes command))

/-- `getViolationsForCommand(command)`: filter the ring by the encoded
command. -/
def getViolationsForCommand (command : String) (s : SandboxViolationStore) :
    List SandboxViolationEvent :=
  s.violations.filter (fun v => v.encodedCommand == encodeSandboxedCommand command)

example : encodeSandboxedCommand "ls" = "bHM=" := by decide

/-- C8.  `getViolationsForCommand(cmd)` returns exactly the stored
violations whose `encodedCommand` equals `encodeSandboxedCommand cmd`,
as a sublist of the ring (hence in storage order); and the encoding is
deterministic: equal command strings always produce equal encodings. -/
theorem get_violations_for_command (ops : List StoreOp) (cmd : String) :
    (getViolationsForCommand cmd (runOps emptyStore ops)).Sublist
      (runOps emptyStore ops).violations ∧
    (∀ v, v ∈ getViolationsForCommand cmd (runOps emptyStore ops) ↔
      v ∈ (runOps emptyStore ops).violations ∧
        v.encodedCommand = encodeSandboxedCommand cmd) ∧
    (∀ cmd₁ cmd₂ : String, cmd₁ = cmd₂ →
      encodeSandboxedCommand cmd₁ = encodeSandboxedCommand cmd₂) := by
  refine ⟨List.filter_sublist _, ?_, fun cmd₁ cmd₂ h => congrArg _ h⟩
  intro v
  simp [getViolationsForCommand, List.mem_filter]

/-- Witness for C8 at concrete inputs: a stored violation whose encoded
command is Base64 of `ls`. -/
theorem get_violations_for_command_witness :
    ((⟨none, "bHM=", "r"⟩ : SandboxViolationEvent) ∈
        getViolationsForCommand "ls" (runOps emptyStore [.add ⟨none, "bHM=", "r"⟩]) ↔
      (⟨none, "bHM=", "r"⟩ : SandboxViolationEvent) ∈
          (runOps emptyStore [.add ⟨none, "bHM=", "r"⟩]).violations ∧
        (⟨none, "bHM=", "r"⟩ : SandboxViolationEvent).encodedCommand =
          encodeSandboxedCommand "ls") ∧
    encodeSandboxedCommand "ls" = encodeSandboxedCommand "ls" := by
  have h := get_violations_for_command [.add ⟨none, "bHM=", "r"⟩] "ls"
  exact ⟨h.2.1 _, h.2.2 "ls" "ls" rfl⟩

/-! ## Claim C9: snapshot freshness and the `limit` argument

Freshness of the returned array is a statement about aliasing, so the
relevant fragment of the JavaScript heap is embedded explicitly: the
store's backing array is a cell in a heap of arrays, and
`[...this.violations]` allocates a fresh cell with the same contents.
The `limit` path of `getViolations` is `this.violations.slice(-limit)`;
because `-0 === 0` in JavaScript, `getViolations(0)` returns the whole
ring rather than zero events, refuting the claim at `limit = 0`. -/

/-- A heap of JavaScript arrays of violation events. -/
structure ArrayHeap where
  cells : List (List SandboxViolationEvent)
deriving DecidableEq, Repr

/-- Dereference an array reference. -/
def readRef (h : ArrayHeap) (r : Nat) : List SandboxViolationEvent :=
  h.cells.getD r []

/-- Allocate a fresh array holding `content`, returning its reference. -/
def allocRef (h : ArrayHeap) (content : List SandboxViolationEvent) : ArrayHeap × Nat :=
  ({ cells := h.cells ++ [content] }, h.cells.length)

/-- Overwrite the array behind a reference (a caller mutating the array
it received). -/
def writeRef (h : ArrayHeap) (r : Nat) (content : List SandboxViolationEvent) : ArrayHeap :=
  { cells := h.cells.set r content }

/-- `getViolations()` with the spread copy made explicit:
`[...this.violations]` allocates a fresh array with the store array's
elements and returns the new reference. -/
def getViolationsCopyRef (h : ArrayHeap) (storeRef : Nat) : ArrayHeap × Nat :=
  allocRef h (readRef h storeRef)

/-- C9 (amended).  `getViolations()` hands out a reference distinct from
the store's backing array with equal contents, so overwriting the
returned array never changes the store's contents; for every limit
`n ≥ 1`, `getViolations(n)` is the most recent `min(n, count)` stored
violations in insertion order; and `getViolations(0)` returns the whole
ring (JavaScript `slice(-0)` is `slice(0)`), not zero events. -/
theorem get_violations_fresh_copy_and_limit :
    (∀ (h : ArrayHeap) (r : Nat), r < h.cells.length →
      (getViolationsCopyRef h r).2 ≠ r ∧
      readRef (getViolationsCopyRef h r).1 (getViolationsCopyRef h r).2 = readRef h r ∧
      ∀ mutated,
        readRef (writeRef (getViolationsCopyRef h r).1 (getViolationsCopyRef h r).2 mutated)
          r = readRef h r) ∧
    (∀ (s : SandboxViolationStore) (n : Nat), 1 ≤ n →
      getViolations s (some n) = s.violations.drop (s.violations.length - n) ∧
      (getViolations s (some n)).length = min n s.violations.length) ∧
    (∀ s : SandboxViolationStore, getViolations s (some 0) = s.violations) := by
  refine ⟨?_, ?_, ?_⟩
  · intro h r hr
    refine ⟨?_, ?_, ?_⟩
    · show h.cells.length ≠ r
      omega
    · show (h.cells ++ [readRef h r]).getD h.cells.length [] = readRef h r
      rw [List.getD_eq_getElem?_getD, List.getElem?_append_right (le_refl _)]
      simp
    · intro mutated
      show ((h.cells ++ [readRef h r]).set h.cells.length mutated).getD r [] = readRef h r
      rw [List.getD_eq_getElem?_getD, List.getElem?_set_ne (by omega),
        List.getElem?_append_left hr]
      rw [readRef, List.getD_eq_getElem?_getD]
  · intro s n hn
    have hslice : getViolations s (some n) = s.violations.drop (s.violations.length - n) := by
      show jsSliceFrom s.violations (-(n : Int)) = _
      exact jsSliceFrom_neg _ _ hn
    refine ⟨hslice, ?_⟩
    rw [hslice, List.length_drop]
    omega
  · intro s
    show jsSliceFrom s.violations (-(0 : Int)) = s.violations
    simp [jsSliceFrom]

/-- Witness for C9 at concrete inputs: a one-cell heap and a two-event
store with limit `1`. -/
theorem get_violations_fresh_copy_and_limit_witness :
    ((getViolationsCopyRef ⟨[[⟨none, "c", "r"⟩]]⟩ 0).2 ≠ 0 ∧
      readRef (getViolationsCopyRef ⟨[[⟨none, "c", "r"⟩]]⟩ 0).1
          (getViolationsCopyRef ⟨[[⟨none, "c", "r"⟩]]⟩ 0).2 =
        readRef ⟨[[⟨none, "c", "r"⟩]]⟩ 0 ∧
      ∀ mutated,
        readRef
          (writeRef (getViolationsCopyRef ⟨[[⟨none, "c", "r"⟩]]⟩ 0).1
            (getViolationsCopyRef ⟨[[⟨none, "c", "r"⟩]]⟩ 0).2 mutated) 0 =
        readRef ⟨[[⟨none, "c", "r"⟩]]⟩ 0) ∧
    getViolations
        { violations := [⟨none, "c", "r"⟩, ⟨none, "c", "q"⟩], totalCount := 2,
          listeners := [], executionListeners := [] } (some 1) =
      [⟨none, "c", "q"⟩] := by
  refine ⟨get_violations_fresh_copy_and_limit.1 ⟨[[⟨none, "c", "r"⟩]]⟩ 0 (by decide), ?_⟩
  rw [(get_violations_fresh_copy_and_limit.2.1 _ 1 (by decide)).1]
  decide

/-- Counterexample to C9 as stated: with one stored violation,
`getViolations(0)` returns that violation rather than the most recent
`min(0, 1) = 0` violations, because JavaScript evaluates `slice(-0)` as
`slice(0)`. -/
theorem get_violations_limit_cex :
    getCount (addViolation ⟨none, "c", "r"⟩ emptyStore).1 = 1 ∧
    (getViolations (addViolation ⟨none, "c", "r"⟩ emptyStore).1 (some 0)).length ≠
      min 0 (getCount (addViolation ⟨none, "c", "r"⟩ emptyStore).1) := by
  decide

/-! ## Claim C10: Unix socket supervisor start/cleanup

`startUnixSocketSupervisor` spawns one socat forwarder per mapping and
waits for all host socket files to appear; on any failure inside the
try block it kills every process spawned in that attempt and unlinks
every existing `hostPath`, then rethrows; the caller retries up to
`MAX_RETRIES = 3` times and throws an immediate error, before anything
is spawned, when the mappings list is empty.  The filesystem and
process effects are embedded in an explicit `SupervisorWorld`; the
outcomes of `existsSync` on parent directories, of `spawn` (whether a
pid is assigned), and of socat binding its listener within the 2s poll
window are oracle functions in `SupervisorEnv`, indexed by the running
spawn counter. -/

structure UnixSocketSupervisorMapping where
  hostPath : String
  sandboxPath : String
deriving DecidableEq, Repr

structure UnixSocketSupervisorContext where
  controlSocketPath : String
  supervisorPid : Nat
  mappings : List UnixSocketSupervisorMapping
deriving DecidableEq, Repr

/-- Environment oracle for one supervisor run: `parentDirExists m` is
`existsSync` on the parent directory of a mapping's host path;
`spawnPid k` is the pid assigned to the `k`-th `spawn` call (`none`
embeds a `ChildProcess` without a pid); `socatCreatesSocket k` says
whether the `k`-th spawned socat binds its listening socket within the
wait window. -/
structure SupervisorEnv where
  parentDirExists : UnixSocketSupervisorMapping → Bool
  spawnPid : Nat → Option Nat
  socatCreatesSocket : Nat → Bool

/-- Observable world state: existing socket files, the running spawn
index, all pids ever spawned, all pids killed, and how many start
attempts have run. -/
structure SupervisorWorld where
  files : List String
  spawnCounter : Nat
  spawnedPids : List Nat
  killedPids : List Nat
  attempts : Nat
deriving DecidableEq, Repr

def RETRY_DELAYS_MS : List Nat := [200, 500, 1000]

def MAX_RETRIES : Nat := RETRY_DELAYS_MS.length

/-- The per-mapping loop inside the try block: unlink a pre-existing
socket file at `hostPath`, spawn socat (throwing when no pid is
assigned), record the pid, and let the spawned socat create its
listening socket when the oracle says it does.  Returns the updated
world, the pids spawned by this attempt, and the error, if any. -/
def spawnForwarders (env : SupervisorEnv) :
    List UnixSocketSupervisorMapping → SupervisorWorld → List Nat →
    SupervisorWorld × List Nat × Option String
  | [], w, pids => (w, pids, none)
  | m :: rest, w, pids =>
    let w1 : SupervisorWorld :=
      if m.hostPath ∈ w.files then { w with files := w.files.erase m.hostPath } else w
    match env.spawnPid w1.spawnCounter with
    | none =>
      ({ w1 with spawnCounter := w1.spawnCounter + 1 }, pids,
        some ("Failed to spawn socat for socket " ++ m.hostPath))
    | some pid =>
      spawnForwarders env rest
        { w1 with
          spawnCounter := w1.spawnCounter + 1,
          spawnedPids := w1.spawnedPids ++ [pid],
          files :=
            if env.socatCreatesSocket w1.spawnCounter then w1.files ++ [m.hostPath]
            else w1.files }
        (pids ++ [pid])

/-- The catch block's file cleanup: for each mapping, unlink `hostPath`
when it exists. -/
def cleanupSocketFiles (mappings : List UnixSocketSupervisorMapping)
    (fs : List String) : List String :=
  mappings.foldl (fun acc m => if m.hostPath ∈ acc then acc.erase m.hostPath else acc) fs

/-- The catch block: kill every process spawned in this attempt (each
has a pid and none is yet killed), then unlink every existing
`hostPath` socket file. -/
def cleanupAttempt (mappings : List UnixSocketSupervisorMapping) (pids : List Nat)
    (w : SupervisorWorld) : SupervisorWorld :=
  { w with
    killedPids := w.killedPids ++ pids,
    files := cleanupSocketFiles mappings w.files }

/-- `attemptStartSupervisor(mappings, runId)`: check every mapping's
parent directory (throwing before the try block, hence without
cleanup), run the spawn loop, then require every host socket file to
exist (the 2s poll); cleanup runs on every failure inside the try
block. -/
def attemptStartSupervisor (env : SupervisorEnv)
    (mappings : List UnixSocketSupervisorMapping) (runId socketId : String)
    (w : SupervisorWorld) :
    SupervisorWorld × Except String UnixSocketSupervisorContext :=
  let w0 : SupervisorWorld := { w with attempts := w.attempts + 1 }
  match mappings.find? (fun m => !env.parentDirExists m) with
  | some m =>
    (w0, .error ("Parent directory for Unix socket does not exist: " ++ m.hostPath))
  | none =>
    match spawnForwarders env mappings w0 [] with
    | (w1, pids, some e) => (cleanupAttempt mappings pids w1, .error e)
    | (w1, pids, none) =>
      if mappings.all (fun m => m.hostPath ∈ w1.files) then
        (w1, .ok
          { controlSocketPath :=
              "/tmp/srt-unix-supervisor-" ++ runId ++ "-" ++ socketId ++ ".sock",
            supervisorPid := pids.headD 0,
            mappings := mappings })
      else
        (cleanupAttempt mappings pids w1,
          .error "Timeout waiting for Unix sockets to be created after 2000ms")

/-- The retry loop of `startUnixSocketSupervisor`, with the remaining
attempt budget as fuel. -/
def startLoop (env : SupervisorEnv) (mappings : List UnixSocketSupervisorMapping)
    (runId socketId : String) :
    Nat → SupervisorWorld → Option String →
    SupervisorWorld × Except String UnixSocketSupervisorContext
  | 0, w, lastError =>
    (w, .error ("Failed to start Unix socket supervisor after 3 attempts: " ++
      lastError.getD "undefined"))
  | n + 1, w, _ =>
    match attemptStartSupervisor env mappings runId socketId w with
    | (w', .ok ctx) => (w', .ok ctx)
    | (w', .error e) => startLoop env mappings runId socketId n w' (some e)

/-- `startUnixSocketSupervisor(mappings, runId)`: reject an empty
mappings list up front, then try `attemptStartSupervisor` up to
`MAX_RETRIES` times. -/
def startUnixSocketSupervisor (env : SupervisorEnv)
    (mappings : List UnixSocketSupervisorMapping) (runId socketId : String)
    (w : SupervisorWorld) :
    SupervisorWorld × Except String UnixSocketSupervisorContext :=
  if mappings.isEmpty then
    (w, .error "Cannot start Unix socket supervisor with no mappings")
  else
    startLoop env mappings runId socketId MAX_RETRIES w none

theorem spawnForwarders_spec (env : SupervisorEnv)
    (ms : List UnixSocketSupervisorMapping) :
    ∀ w pids, ∃ new,
      (spawnForwarders env ms w pids).2.1 = pids ++ new ∧
      (spawnForwarders env ms w pids).1.spawnedPids = w.spawnedPids ++ new ∧
      (spawnForwarders env ms w pids).1.killedPids = w.killedPids ∧
      (spawnForwarders env ms w pids).1.attempts = w.attempts := by
  induction ms with
  | nil =>
    intro w pids
    refine ⟨[], ?_, ?_, ?_, ?_⟩ <;> simp [spawnForwarders]
  | cons m rest ih =>
    intro w pids
    by_cases hmem : m.hostPath ∈ w.files
    all_goals
      dsimp only [spawnForwarders]
      first
      | rw [if_pos hmem]
      | rw [if_neg hmem]
      cases env.spawnPid w.spawnCounter with
      | none => refine ⟨[], ?_, ?_, ?_, ?_⟩ <;> simp
      | some pid =>
        obtain ⟨new', h1, h2, h3, h4⟩ := ih _ (pids ++ [pid])
        refine ⟨pid :: new', ?_, ?_, ?_, ?_⟩
        · rw [h1]
          simp
        · rw [h2]
          simp
        · rw [h3]
        · rw [h4]

theorem spawnForwarders_files_nodup (env : SupervisorEnv)
    (ms : List UnixSocketSupervisorMapping) :
    ∀ w pids, w.files.Nodup → (spawnForwarders env ms w pids).1.files.Nodup := by
  induction ms with
  | nil => exact fun w pids h => h
  | cons m rest ih =>
    intro w pids h
    by_cases hmem : m.hostPath ∈ w.files
    · dsimp only [spawnForwarders]
      rw [if_pos hmem]
      cases env.spawnPid w.spawnCounter with
      | none => exact List.Nodup.erase _ h
      | some pid =>
        apply ih
        by_cases hflag : env.socatCreatesSocket w.spawnCounter
        · show (if env.socatCreatesSocket w.spawnCounter then
              w.files.erase m.hostPath ++ [m.hostPath] else w.files.erase m.hostPath).Nodup
          rw [if_pos hflag, List.nodup_append]
          refine ⟨List.Nodup.erase _ h, List.nodup_singleton _, ?_⟩
          intro x hx hx'
          simp at hx'
          subst hx'
          exact ((List.Nodup.mem_erase_iff h).mp hx).1 rfl
        · show (if env.socatCreatesSocket w.spawnCounter then
              w.files.erase m.hostPath ++ [m.hostPath] else w.files.erase m.hostPath).Nodup
          rw [if_neg hflag]
          exact List.Nodup.erase _ h
    · dsimp only [spawnForwarders]
      rw [if_neg hmem]
      cases env.spawnPid w.spawnCounter with
      | none => exact h
      | some pid =>
        apply ih
        by_cases hflag : env.socatCreatesSocket w.spawnCounter
        · show (if env.socatCreatesSocket w.spawnCounter then
              w.files ++ [m.hostPath] else w.files).Nodup
          rw [if_pos hflag, List.nodup_append]
          refine ⟨h, List.nodup_singleton _, ?_⟩
          intro x hx hx'
          simp at hx'
          subst hx'
          exact hmem hx
        · show (if env.socatCreatesSocket w.spawnCounter then
              w.files ++ [m.hostPath] else w.files).Nodup
          rw [if_neg hflag]
          exact h

theorem cleanupSocketFiles_spec (ms : List UnixSocketSupervisorMapping) :
    ∀ fs : List String, fs.Nodup →
      (cleanupSocketFiles ms fs).Sublist fs ∧
      ∀ m ∈ ms, m.hostPath ∉ cleanupSocketFiles ms fs := by
  induction ms with
  | nil =>
    intro fs h
    exact ⟨List.Sublist.refl _, by simp [cleanupSocketFiles]⟩
  | cons m rest ih =>
    intro fs h
    have hstep : cleanupSocketFiles (m :: rest) fs =
        cleanupSocketFiles rest (if m.hostPath ∈ fs then fs.erase m.hostPath else fs) := rfl
    have hsub1 : (if m.hostPath ∈ fs then fs.erase m.hostPath else fs).Sublist fs := by
      by_cases hm : m.hostPath ∈ fs
      · rw [if_pos hm]
        exact List.erase_sublist _ _
      · rw [if_neg hm]
    have hnd1 : (if m.hostPath ∈ fs then fs.erase m.hostPath else fs).Nodup :=
      List.Nodup.sublist hsub1 h
    have hnotm : m.hostPath ∉ (if m.hostPath ∈ fs then fs.erase m.hostPath else fs) := by
      by_cases hm : m.hostPath ∈ fs
      · rw [if_pos hm]
        intro hx
        exact ((List.Nodup.mem_erase_iff h).mp hx).1 rfl
      · rw [if_neg hm]
        exact hm
    obtain ⟨hsub2, hmem2⟩ := ih _ hnd1
    rw [hstep]
    refine ⟨hsub2.trans hsub1, ?_⟩
    intro m' hm'
    rcases List.mem_cons.mp hm' with h' | h'
    · subst h'
      intro hx
      exact hnotm (hsub2.subset hx)
    · exact hmem2 m' h'

theorem attemptStartSupervisor_attempts (env : SupervisorEnv)
    (mappings : List UnixSocketSupervisorMapping) (runId socketId : String)
    (w : SupervisorWorld) :
    (attemptStartSupervisor env mappings runId socketId w).1.attempts = w.attempts + 1 := by
  unfold attemptStartSupervisor
  dsimp only
  cases mappings.find? (fun m => !env.parentDirExists m) with
  | some m => rfl
  | none =>
    obtain ⟨new, h1, h2, h3, h4⟩ :=
      spawnForwarders_spec env mappings { w with attempts := w.attempts + 1 } []
    rcases hsf : spawnForwarders env mappings { w with attempts := w.attempts + 1 } []
      with ⟨w1, pids, err⟩
    rw [hsf] at h4
    dsimp only at h4
    dsimp only
    cases err with
    | some e => exact h4
    | none =>
      dsimp only
      split
      · exact h4
      · exact h4

theorem attemptStartSupervisor_cleanup (env : SupervisorEnv)
    (mappings : List UnixSocketSupervisorMapping) (runId socketId : String)
    (w : SupervisorWorld) (hnd : w.files.Nodup)
    (hpar : ∀ m ∈ mappings, env.parentDirExists m = true) :
    ∀ e, (attemptStartSupervisor env mappings runId socketId w).2 = .error e →
      (∀ pid, pid ∈ (attemptStartSupervisor env mappings runId socketId w).1.spawnedPids →
        pid ∉ w.spawnedPids →
        pid ∈ (attemptStartSupervisor env mappings runId socketId w).1.killedPids) ∧
      (∀ m ∈ mappings,
        m.hostPath ∉ (attemptStartSupervisor env mappings runId socketId w).1.files) := by
  intro e herr
  have hfind : mappings.find? (fun m => !env.parentDirExists m) = none := by
    rw [List.find?_eq_none]
    intro x hx
    simp [hpar x hx]
  have hw0nd : ({ w with attempts := w.attempts + 1 } : SupervisorWorld).files.Nodup := hnd
  obtain ⟨new, h1, h2, h3, h4⟩ :=
    spawnForwarders_spec env mappings { w with attempts := w.attempts + 1 } []
  have hw1nd :=
    spawnForwarders_files_nodup env mappings { w with attempts := w.attempts + 1 } [] hw0nd
  unfold attemptStartSupervisor at herr ⊢
  dsimp only at herr ⊢
  rw [hfind] at herr ⊢
  dsimp only at herr ⊢
  rcases hsf : spawnForwarders env mappings { w with attempts := w.attempts + 1 } []
    with ⟨w1, pids, err⟩
  rw [hsf] at h1 h2 h3 hw1nd herr
  dsimp only at h1 h2 h3 hw1nd herr ⊢
  obtain ⟨hclean_sub, hclean_mem⟩ := cleanupSocketFiles_spec mappings w1.files hw1nd
  have hkill : ∀ pid, pid ∈ w1.spawnedPids → pid ∉ w.spawnedPids →
      pid ∈ w1.killedPids ++ pids := by
    intro pid hpid hnot
    rw [h2] at hpid
    rcases List.mem_append.mp hpid with hpid' | hpid'
    · exact absurd hpid' hnot
    · refine List.mem_append_right _ ?_
      rw [h1]
      simpa using hpid'
  cases err with
  | some e' =>
    dsimp only at herr ⊢
    exact ⟨hkill, fun m hm => hclean_mem m hm⟩
  | none =>
    dsimp only at herr ⊢
    by_cases hall : mappings.all (fun m => m.hostPath ∈ w1.files)
    · rw [if_pos hall] at herr
      exact absurd herr (by simp)
    · rw [if_neg hall] at herr ⊢
      exact ⟨hkill, fun m hm => hclean_mem m hm⟩

theorem startLoop_attempts (env : SupervisorEnv)
    (mappings : List UnixSocketSupervisorMapping) (runId socketId : String) :
    ∀ (n : Nat) (w : SupervisorWorld) (lastError : Option String),
      (startLoop env mappings runId socketId n w lastError).1.attempts ≤ w.attempts + n := by
  intro n
  induction n with
  | zero => intro w lastError; exact Nat.le_refl _
  | succ n ih =>
    intro w lastError
    dsimp only [startLoop]
    have hatt := attemptStartSupervisor_attempts env mappings runId socketId w
    rcases hattempt : attemptStartSupervisor env mappings runId socketId w with ⟨w', res⟩
    rw [hattempt] at hatt
    dsimp only at hatt
    cases res with
    | ok ctx =>
      dsimp only
      omega
    | error e =>
      dsimp only
      calc (startLoop env mappings runId socketId n w' (some e)).1.attempts
          ≤ w'.attempts + n := ih w' (some e)
        _ ≤ w.attempts + (n + 1) := by omega

/-- C10.  `startUnixSocketSupervisor` throws immediately on an empty
mappings list, leaving the world untouched (in particular nothing is
spawned); whenever an attempt that passed the parent-directory
precheck fails, every process spawned during that attempt has been
killed and no mapping's `hostPath` socket file remains on disk when
the error propagates; and a run makes at most `MAX_RETRIES = 3`
attempts in total. -/
theorem unix_socket_supervisor_start (env : SupervisorEnv)
    (mappings : List UnixSocketSupervisorMapping) (runId socketId : String)
    (w : SupervisorWorld) :
    (mappings = [] →
      startUnixSocketSupervisor env mappings runId socketId w =
        (w, .error "Cannot start Unix socket supervisor with no mappings")) ∧
    (w.files.Nodup →
      (∀ m ∈ mappings, env.parentDirExists m = true) →
      ∀ e, (attemptStartSupervisor env mappings runId socketId w).2 = .error e →
        (∀ pid,
          pid ∈ (attemptStartSupervisor env mappings runId socketId w).1.spawnedPids →
          pid ∉ w.spawnedPids →
          pid ∈ (attemptStartSupervisor env mappings runId socketId w).1.killedPids) ∧
        (∀ m ∈ mappings,
          m.hostPath ∉ (attemptStartSupervisor env mappings runId socketId w).1.files)) ∧
    (startUnixSocketSupervisor env mappings runId socketId w).1.attempts ≤
      w.attempts + MAX_RETRIES := by
  refine ⟨?_, ?_, ?_⟩
  · rintro rfl
    rfl
  · intro hnd hpar e herr
    exact attemptStartSupervisor_cleanup env mappings runId socketId w hnd hpar e herr
  · unfold startUnixSocketSupervisor
    by_cases hemp : mappings.isEmpty
    · rw [if_pos hemp]
      exact Nat.le_add_right _ _
    · rw [if_neg hemp]
      exact startLoop_attempts env mappings runId socketId MAX_RETRIES w none

/-- Witness for C10 at concrete inputs: the empty-mappings rejection,
a failing attempt (spawn never assigns a pid) with its cleanup
obligations, and the attempt bound. -/
theorem unix_socket_supervisor_start_witness :
    (startUnixSocketSupervisor ⟨fun _ => true, fun _ => none, fun _ => false⟩ [] "r" "sid"
        ⟨[], 0, [], [], 0⟩ =
      (⟨[], 0, [], [], 0⟩, .error "Cannot start Unix socket supervisor with no mappings")) ∧
    ((∀ pid,
        pid ∈ (attemptStartSupervisor ⟨fun _ => true, fun _ => none, fun _ => false⟩
          [⟨"/tmp/a.sock", "/sbx/a.sock"⟩] "r" "sid" ⟨[], 0, [], [], 0⟩).1.spawnedPids →
        pid ∉ (⟨[], 0, [], [], 0⟩ : SupervisorWorld).spawnedPids →
        pid ∈ (attemptStartSupervisor ⟨fun _ => true, fun _ => none, fun _ => false⟩
          [⟨"/tmp/a.sock", "/sbx/a.sock"⟩] "r" "sid" ⟨[], 0, [], [], 0⟩).1.killedPids) ∧
      (∀ m ∈ [(⟨"/tmp/a.sock", "/sbx/a.sock"⟩ : UnixSocketSupervisorMapping)],
        m.hostPath ∉ (attemptStartSupervisor ⟨fun _ => true, fun _ => none, fun _ => false⟩
          [⟨"/tmp/a.sock", "/sbx/a.sock"⟩] "r" "sid" ⟨[], 0, [], [], 0⟩).1.files)) ∧
    (startUnixSocketSupervisor ⟨fun _ => true, fun _ => none, fun _ => false⟩
        [⟨"/tmp/a.sock", "/sbx/a.sock"⟩] "r" "sid" ⟨[], 0, [], [], 0⟩).1.attempts ≤
      (⟨[], 0, [], [], 0⟩ : SupervisorWorld).attempts + MAX_RETRIES := by
  have h1 := unix_socket_supervisor_start ⟨fun _ => true, fun _ => none, fun _ => false⟩ []
    "r" "sid" ⟨[], 0, [], [], 0⟩
  have h2 := unix_socket_supervisor_start ⟨fun _ => true, fun _ => none, fun _ => false⟩
    [⟨"/tmp/a.sock", "/sbx/a.sock"⟩] "r" "sid" ⟨[], 0, [], [], 0⟩
  refine ⟨h1.1 rfl, h2.2.1 (by simp) ?_ "Failed to spawn socat for socket /tmp/a.sock" rfl,
    h2.2.2⟩
  intro m hm
  simp at hm
  rw [hm]

/-! ## Claim C1: the Host-Matcher

The matcher itself (shared by the HTTP and SOCKS proxies) is not among
the provided sources; only `NetworkRestrictionConfig` in
`src/sandbox/sandbox-schemas.ts` is, and it fixes the evaluation order:
`deniedHosts` are checked first, before `allowedHosts`, and an empty or
absent `allowedHosts` allows nothing.  The pattern language is modelled
from §4.1 of the specification. -/

/-- `NetworkRestrictionConfig` from `sandbox-schemas.ts`: optional
allow and deny pattern lists; `none` is maximally restrictive. -/
structure NetworkRestrictionConfig where
  allowedHosts : Option (List String) := none
  deniedHosts : Option (List String) := none
deriving DecidableEq, Repr

/-- Decision of the Host-Matcher. -/
inductive HostDecision where
  | allow
  | deny
deriving DecidableEq, Repr

/-- Split a character list at every occurrence of a separator (the
semantics of `String.prototype.split` with a one-character separator);
the result is always non-empty. -/
def splitOnCharAux (sep : Char) : List Char → List (List Char)
  | [] => [[]]
  | c :: rest =>
    match splitOnCharAux sep rest with
    | [] => [[c]]
    | g :: gs => if c == sep then [] :: g :: gs else (c :: g) :: gs

/-- Split a string at a one-character separator. -/
def splitString (sep : Char) (s : String) : List String :=
  (splitOnCharAux sep s.data).map String.mk

/-- Lower-case one ASCII character. -/
def toLowerChar (c : Char) : Char :=
  if 65 ≤ c.toNat && c.toNat ≤ 90 then Char.ofNat (c.toNat + 32) else c

/-- Parse a non-empty all-digit string as a number. -/
def parseNatDigits (s : String) : Option Nat :=
  if !s.data.isEmpty && s.data.all Char.isDigit then
    some (s.data.foldl (fun acc c => acc * 10 + (c.toNat - 48)) 0)
  else none

/-- Modelled from the spec: split an optional `:port` suffix off a
pattern (`host:port` requires both host and port to match; a bare host
ignores the port). -/
def splitHostPort (pat : String) : String × Option Nat :=
  match splitString ':' pat with
  | [h, p] =>
    match parseNatDigits p with
    | some n => (h, some n)
    | none => (pat, none)
  | _ => (pat, none)

/-- Parse a dotted-quad IPv4 literal into its 32-bit value. -/
def parseIPv4 (s : String) : Option Nat :=
  match splitString '.' s with
  | [a, b, c, d] =>
    match parseNatDigits a, parseNatDigits b, parseNatDigits c, parseNatDigits d with
    | some x, some y, some z, some u =>
      if x ≤ 255 && y ≤ 255 && z ≤ 255 && u ≤ 255 then
        some (x * 16777216 + y * 65536 + z * 256 + u)
      else none
    | _, _, _, _ => none
  | _ => none

/-- Modelled from the spec: CIDR block match (`10.0.0.0/8`) for IPv4
destination literals, comparing the top `bits` bits. -/
def cidrMatches (pat host : String) : Bool :=
  match splitString '/' pat with
  | [base, bits] =>
    match parseIPv4 base, parseNatDigits bits, parseIPv4 host with
    | some b, some k, some h => k ≤ 32 && b / 2 ^ (32 - k) == h / 2 ^ (32 - k)
    | _, _, _ => false
  | _ => false

/-- Modelled from the spec: one pattern against one destination.
Patterns: exact host (case-insensitive), left wildcard `*.domain`
(a non-empty label sequence before the suffix, never the apex),
optional `:port` suffix, IPv4 CIDR blocks, and the universal `*`. -/
def hostMatchesPattern (pat : String) (host : String) (port : Nat) : Bool :=
  let hp := splitHostPort pat
  let portOk : Bool :=
    match hp.2 with
    | some pp => pp == port
    | none => true
  let patLower := hp.1.data.map toLowerChar
  let hostLower := host.data.map toLowerChar
  let hostOk : Bool :=
    match patLower with
    | ['*'] => true
    | '*' :: '.' :: restPat =>
      let suffix := '.' :: restPat
      suffix == hostLower.drop (hostLower.length - suffix.length) &&
        suffix.length < hostLower.length
    | _ =>
      patLower == hostLower ||
        cidrMatches (String.mk patLower) (String.mk hostLower)
  portOk && hostOk

/-- Modelled from the spec: the Host-Matcher decision for a destination.
Deny patterns are evaluated first; any match denies.  Then allow
patterns; any match allows.  No match denies (network policy is
allow-only), and an absent list behaves as the empty list. -/
def checkDestination (cfg : NetworkRestrictionConfig) (host : String) (port : Nat) :
    HostDecision :=
  if (cfg.deniedHosts.getD []).any (fun p => hostMatchesPattern p host port) then .deny
  else if (cfg.allowedHosts.getD []).any (fun p => hostMatchesPattern p host port) then
    .allow
  else .deny

example : checkDestination ⟨some ["example.com"], some []⟩ "EXAMPLE.com" 443 = .allow := by
  decide

example : checkDestination ⟨some ["*.example.com"], some []⟩ "a.example.com" 80 = .allow := by
  decide

example : checkDestination ⟨some ["*.example.com"], some []⟩ "example.com" 80 = .deny := by
  decide

example : checkDestination ⟨some ["10.0.0.0/8"], some []⟩ "10.9.8.7" 80 = .allow := by
  decide

example : checkDestination ⟨some ["*"], some ["evil.com"]⟩ "evil.com" 80 = .deny := by
  decide

example : checkDestination ⟨some ["example.com:443"], some []⟩ "example.com" 80 = .deny := by
  decide

/-- C1.  Deny patterns win: any denied match forces `deny` regardless of
the allow list; with no match at all the default is `deny`; and an
empty (or absent) allow list reaches no host whatsoever. -/
theorem host_matcher_deny_precedence (cfg : NetworkRestrictionConfig) (host : String)
    (port : Nat) :
    ((cfg.deniedHosts.getD []).any (fun p => hostMatchesPattern p host port) = true →
      checkDestination cfg host port = .deny) ∧
    ((cfg.deniedHosts.getD []).any (fun p => hostMatchesPattern p host port) = false →
     (cfg.allowedHosts.getD []).any (fun p => hostMatchesPattern p host port) = false →
      checkDestination cfg host port = .deny) ∧
    (cfg.allowedHosts.getD [] = [] → checkDestination cfg host port = .deny) := by
  refine ⟨?_, ?_, ?_⟩
  · intro hden
    unfold checkDestination
    rw [if_pos hden]
  · intro hden hall
    unfold checkDestination
    rw [if_neg (by simp [hden]), if_neg (by simp [hall])]
  · intro hempty
    unfold checkDestination
    rw [hempty]
    by_cases hden :
        (cfg.deniedHosts.getD []).any (fun p => hostMatchesPattern p host port) = true
    · rw [if_pos hden]
    · rw [if_neg (by simpa using hden)]
      simp

/-- Witness for C1 at concrete inputs: `example.com` both allowed and
denied is denied; a config with empty lists denies an unmatched host;
and the empty allow list denies. -/
theorem host_matcher_deny_precedence_witness :
    checkDestination ⟨some ["example.com"], some ["example.com"]⟩ "example.com" 443 =
      .deny ∧
    checkDestination ⟨some [], some []⟩ "example.com" 443 = .deny ∧
    checkDestination ⟨some [], some ["evil.com"]⟩ "other.com" 1 = .deny := by
  have h1 := host_matcher_deny_precedence ⟨some ["example.com"], some ["example.com"]⟩
    "example.com" 443
  have h2 := host_matcher_deny_precedence ⟨some [], some []⟩ "example.com" 443
  have h3 := host_matcher_deny_precedence ⟨some [], some ["evil.com"]⟩ "other.com" 1
  exact ⟨h1.1 (by decide), h2.2.1 (by decide) (by decide), h3.2.2 rfl⟩

/-! ## Claims C3 and C4: the orchestrator lifecycle

`SandboxManager` (`src/sandbox/sandbox-manager.ts`) is not among the
provided sources; only its tests are.  Its state cell, `initialize`
and the port accessors are modelled from the specification: a proxy
whose port is configured is external (no local listener is started);
a proxy without a configured port is started locally on an OS-chosen
port.  The operating system hands out ports in `[1, 65535]` and never
hands the same port to two concurrently bound listeners; `LocalPortAlloc`
carries these facts as fields. -/

/-- A proxy handle: its port, and whether a local listener was started
for it (`isLocal = false` means the port was supplied externally and no
listener was bound). -/
structure ProxyHandle where
  port : Nat
  isLocal : Bool
deriving DecidableEq, Repr

/-- Filesystem part of `SandboxRuntimeConfig` (as used by the tests). -/
structure SandboxFilesystemConfig where
  denyRead : List String := []
  allowWrite : List String := []
  denyWrite : List String := []
deriving DecidableEq, Repr

/-- Network part of `SandboxRuntimeConfig`. -/
structure SandboxNetworkConfig where
  allowedDomains : List String := []
  deniedDomains : List String := []
  httpProxyPort : Option Nat := none
  socksProxyPort : Option Nat := none
deriving DecidableEq, Repr

/-- The orchestrator configuration (the fields the claims are about). -/
structure SandboxRuntimeConfig where
  network : SandboxNetworkConfig
  filesystem : SandboxFilesystemConfig
  env : List (String × String) := []
  preCommand : Option String := none
deriving DecidableEq, Repr

/-- The `Initialized` contents of the process-wide state cell. -/
structure ManagerState where
  config : SandboxRuntimeConfig
  httpProxy : ProxyHandle
  socksProxy : ProxyHandle
deriving DecidableEq, Repr

/-- The OS port allocator for locally started listeners: two distinct
valid ports (two live listeners can never share a port). -/
structure LocalPortAlloc where
  httpPort : Nat
  socksPort : Nat
  httpPort_pos : 1 ≤ httpPort
  httpPort_le : httpPort ≤ 65535
  socksPort_pos : 1 ≤ socksPort
  socksPort_le : socksPort ≤ 65535
  distinct : httpPort ≠ socksPort

/-- Errors surfaced by `initialize`. -/
inductive InitError where
  | alreadyInitializedWithDifferentConfig
deriving DecidableEq, Repr

/-- Modelled from the spec: the state built by a first `initialize`:
each proxy is external exactly when its port is configured, and local
on an OS-chosen port otherwise. -/
def initManagerState (alloc : LocalPortAlloc) (c : SandboxRuntimeConfig) : ManagerState :=
  { config := c
    httpProxy :=
      match c.network.httpProxyPort with
      | some p => { port := p, isLocal := false }
      | none => { port := alloc.httpPort, isLocal := true }
    socksProxy :=
      match c.network.socksProxyPort with
      | some p => { port := p, isLocal := false }
      | none => { port := alloc.socksPort, isLocal := true } }

/-- Modelled from the spec: `initialize(config)` on the state cell.
Uninitialized: build the state.  Initialized with a structurally equal
config: no-op.  Initialized with a different config: fail without
modifying state. -/
def initManager (alloc : LocalPortAlloc) (c : SandboxRuntimeConfig)
    (st : Option ManagerState) : Option ManagerState × Except InitError Unit :=
  match st with
  | none => (some (initManagerState alloc c), .ok ())
  | some s =>
    if s.config = c then (some s, .ok ())
    else (some s, .error .alreadyInitializedWithDifferentConfig)

/-- `getProxyPort()`. -/
def getProxyPort (s : ManagerState) : Nat := s.httpProxy.port

/-- `getSocksProxyPort()`. -/
def getSocksProxyPort (s : ManagerState) : Nat := s.socksProxy.port

/-- C3.  After `initialize(c)`, a second `initialize` with a
structurally equal configuration is a no-op returning success and
leaving the state cell (hence both proxy ports) exactly as after the
first call, even if the OS would now hand out different ports; a second
`initialize` with a different configuration fails with the
already-initialized error and leaves the state cell unchanged. -/
theorem initialize_idempotent_or_rejects (alloc alloc' : LocalPortAlloc)
    (c c' : SandboxRuntimeConfig) :
    ((initManager alloc' c (initManager alloc c none).1).1 =
        (initManager alloc c none).1 ∧
      (initManager alloc' c (initManager alloc c none).1).2 = .ok ()) ∧
    (c' ≠ c →
      (initManager alloc' c' (initManager alloc c none).1).1 =
        (initManager alloc c none).1 ∧
      (initManager alloc' c' (initManager alloc c none).1).2 =
        .error .alreadyInitializedWithDifferentConfig) := by
  have hconfig : (initManagerState alloc c).config = c := rfl
  constructor
  · constructor
    · dsimp only [initManager]
      rw [if_pos hconfig]
    · dsimp only [initManager]
      rw [if_pos hconfig]
  · intro hne
    have hne' : ¬(initManagerState alloc c).config = c' := by
      rw [hconfig]
      exact fun h => hne h.symm
    constructor
    · dsimp only [initManager]
      rw [if_neg hne']
    · dsimp only [initManager]
      rw [if_neg hne']

/-- Witness for C3 at concrete configurations differing in
`httpProxyPort`. -/
theorem initialize_idempotent_or_rejects_witness :
    ((initManager ⟨30001, 30002, by decide, by decide, by decide, by decide, by decide⟩
        { network := { httpProxyPort := some 5555, socksProxyPort := some 5556 },
          filesystem := {} }
        (initManager ⟨30001, 30002, by decide, by decide, by decide, by decide, by decide⟩
          { network := { httpProxyPort := some 5555, socksProxyPort := some 5556 },
            filesystem := {} } none).1).1 =
      (initManager ⟨30001, 30002, by decide, by decide, by decide, by decide, by decide⟩
        { network := { httpProxyPort := some 5555, socksProxyPort := some 5556 },
          filesystem := {} } none).1) ∧
    (initManager ⟨30001, 30002, by decide, by decide, by decide, by decide, by decide⟩
        { network := { httpProxyPort := some 7777, socksProxyPort := some 5556 },
          filesystem := {} }
        (initManager ⟨30001, 30002, by decide, by decide, by decide, by decide, by decide⟩
          { network := { httpProxyPort := some 5555, socksProxyPort := some 5556 },
            filesystem := {} } none).1).2 =
      .error .alreadyInitializedWithDifferentConfig := by
  have h := initialize_idempotent_or_rejects
    ⟨30001, 30002, by decide, by decide, by decide, by decide, by decide⟩
    ⟨30001, 30002, by decide, by decide, by decide, by decide, by decide⟩
    { network := { httpProxyPort := some 5555, socksProxyPort := some 5556 },
      filesystem := {} }
    { network := { httpProxyPort := some 7777, socksProxyPort := some 5556 },
      filesystem := {} }
  exact ⟨h.1.1, (h.2 (by decide)).2⟩

/-- C4.  With `httpProxyPort = p` configured, `getProxyPort()` returns
`p` and no local HTTP listener is started (symmetrically for SOCKS);
a proxy without a configured port becomes a local listener on the
OS-chosen port; and when both proxies are local the two ports differ
and both lie in `[1, 65535]`. -/
theorem proxy_port_assignment (alloc : LocalPortAlloc) (c : SandboxRuntimeConfig) :
    (∀ p, c.network.httpProxyPort = some p →
      getProxyPort (initManagerState alloc c) = p ∧
      (initManagerState alloc c).httpProxy.isLocal = false) ∧
    (∀ p, c.network.socksProxyPort = some p →
      getSocksProxyPort (initManagerState alloc c) = p ∧
      (initManagerState alloc c).socksProxy.isLocal = false) ∧
    (c.network.httpProxyPort = none →
      (initManagerState alloc c).httpProxy.isLocal = true ∧
      getProxyPort (initManagerState alloc c) = alloc.httpPort) ∧
    (c.network.socksProxyPort = none →
      (initManagerState alloc c).socksProxy.isLocal = true ∧
      getSocksProxyPort (initManagerState alloc c) = alloc.socksPort) ∧
    (c.network.httpProxyPort = none → c.network.socksProxyPort = none →
      getProxyPort (initManagerState alloc c) ≠ getSocksProxyPort (initManagerState alloc c) ∧
      1 ≤ getProxyPort (initManagerState alloc c) ∧
      getProxyPort (initManagerState alloc c) ≤ 65535 ∧
      1 ≤ getSocksProxyPort (initManagerState alloc c) ∧
      getSocksProxyPort (initManagerState alloc c) ≤ 65535) := by
  refine ⟨?_, ?_, ?_, ?_, ?_⟩
  · intro p hp
    exact ⟨by simp [getProxyPort, initManagerState, hp],
      by simp [initManagerState, hp]⟩
  · intro p hp
    exact ⟨by simp [getSocksProxyPort, initManagerState, hp],
      by simp [initManagerState, hp]⟩
  · intro hp
    exact ⟨by simp [initManagerState, hp], by simp [getProxyPort, initManagerState, hp]⟩
  · intro hp
    exact ⟨by simp [initManagerState, hp],
      by simp [getSocksProxyPort, initManagerState, hp]⟩
  · intro hh hs
    have h1 : getProxyPort (initManagerState alloc c) = alloc.httpPort := by
      simp [getProxyPort, initManagerState, hh]
    have h2 : getSocksProxyPort (initManagerState alloc c) = alloc.socksPort := by
      simp [getSocksProxyPort, initManagerState, hs]
    rw [h1, h2]
    exact ⟨alloc.distinct, alloc.httpPort_pos, alloc.httpPort_le,
      alloc.socksPort_pos, alloc.socksPort_le⟩

/-- Witness for C4: an external HTTP proxy on `8888` with a local
SOCKS proxy, and a fully local configuration. -/
theorem proxy_port_assignment_witness :
    (getProxyPort (initManagerState
        ⟨30001, 30002, by decide, by decide, by decide, by decide, by decide⟩
        { network := { httpProxyPort := some 8888 }, filesystem := {} }) = 8888 ∧
      (initManagerState
        ⟨30001, 30002, by decide, by decide, by decide, by decide, by decide⟩
        { network := { httpProxyPort := some 8888 }, filesystem := {} }).httpProxy.isLocal =
        false) ∧
    (getProxyPort (initManagerState
        ⟨30001, 30002, by decide, by decide, by decide, by decide, by decide⟩
        { network := {}, filesystem := {} }) ≠
      getSocksProxyPort (initManagerState
        ⟨30001, 30002, by decide, by decide, by decide, by decide, by decide⟩
        { network := {}, filesystem := {} })) := by
  have h1 := proxy_port_assignment
    ⟨30001, 30002, by decide, by decide, by decide, by decide, by decide⟩
    { network := { httpProxyPort := some 8888 }, filesystem := {} }
  have h2 := proxy_port_assignment
    ⟨30001, 30002, by decide, by decide, by decide, by decide, by decide⟩
    { network := {}, filesystem := {} }
  exact ⟨h1.1 8888 rfl, (h2.2.2.2.2 rfl rfl).1⟩

/-! ## Claim C5: the emitted environment variables

`generateProxyEnvVars` lives in `src/sandbox/sandbox-utils.ts`, which
is not among the provided sources (only its tests are); it is modelled
from the specification's bit-exact list.  The specification fixes the
output for the case where both proxy ports are present and for the case
where both are absent; for a single absent port the model emits each
proxy variable exactly when its own port is present. -/

/-- Modelled from the spec: the environment variable list for the
wrapped command: `HTTP_PROXY`, `HTTPS_PROXY`, `ALL_PROXY`, `NO_PROXY=`
(empty), then `SANDBOX_RUNTIME=1` and `TMPDIR=/tmp/claude`, followed by
the configured `env` entries in their original order; proxy variables
are omitted when their ports are absent. -/
def generateProxyEnvVars (httpProxyPort socksProxyPort : Option Nat)
    (customEnv : List (String × String)) : List String :=
  (match httpProxyPort with
   | some p =>
     ["HTTP_PROXY=http://localhost:" ++ toString p,
      "HTTPS_PROXY=http://localhost:" ++ toString p]
   | none => []) ++
  (match socksProxyPort with
   | some s => ["ALL_PROXY=socks5://localhost:" ++ toString s]
   | none => []) ++
  (if httpProxyPort.isSome || socksProxyPort.isSome then ["NO_PROXY="] else []) ++
  (["SANDBOX_RUNTIME=1", "TMPDIR=/tmp/claude"] ++
    customEnv.map (fun kv => kv.1 ++ "=" ++ kv.2))

example :
    generateProxyEnvVars (some 3128) (some 1080) [("SSL_CERT_FILE", "/tmp/ca-bundle.crt")] =
      ["HTTP_PROXY=http://localhost:3128", "HTTPS_PROXY=http://localhost:3128",
       "ALL_PROXY=socks5://localhost:1080", "NO_PROXY=", "SANDBOX_RUNTIME=1",
       "TMPDIR=/tmp/claude", "SSL_CERT_FILE=/tmp/ca-bundle.crt"] := by decide

/-- C5.  With both proxy ports present the emitted variables are, in
this exact order: `HTTP_PROXY`, `HTTPS_PROXY`, `ALL_PROXY`, an empty
`NO_PROXY`, `SANDBOX_RUNTIME=1`, `TMPDIR=/tmp/claude`, then the
configured `env` entries in their original order; with both ports
absent every proxy variable is omitted while `SANDBOX_RUNTIME=1` and
`TMPDIR=/tmp/claude` are still emitted, again followed by `env`. -/
theorem generate_proxy_env_vars (p s : Nat) (customEnv : List (String × String)) :
    generateProxyEnvVars (some p) (some s) customEnv =
      ["HTTP_PROXY=http://localhost:" ++ toString p,
       "HTTPS_PROXY=http://localhost:" ++ toString p,
       "ALL_PROXY=socks5://localhost:" ++ toString s,
       "NO_PROXY=", "SANDBOX_RUNTIME=1", "TMPDIR=/tmp/claude"] ++
        customEnv.map (fun kv => kv.1 ++ "=" ++ kv.2) ∧
    generateProxyEnvVars none none customEnv =
      ["SANDBOX_RUNTIME=1", "TMPDIR=/tmp/claude"] ++
        customEnv.map (fun kv => kv.1 ++ "=" ++ kv.2) := by
  constructor
  · simp [generateProxyEnvVars]
  · simp [generateProxyEnvVars]

end SandboxRuntime
